import Mathlib

/-!
Verification of the aicommits resilient network client
(`src/utils/openai.ts`, raw-HTTPS implementation, and the SDK-backed
variant of `generateCommitMessage`) against its design specification.

The TypeScript source is shallowly embedded: pure string processing
becomes Lean functions on `List Char` / `String`; the retry loop of
`createChatCompletion` becomes a recursive function over an oracle
`outcomes : Nat → AttemptOutcome` that supplies the result (resolution
or rejection of `httpsPost`) of each transport attempt; the
process-global `NODE_TLS_REJECT_UNAUTHORIZED` environment variable of
the SDK variant becomes explicit state passing of a `Bool`
("the variable is set, i.e. certificate verification is disabled").
-/

/-! ### JavaScript string primitives used by the source -/

/-- Characters removed by JavaScript `String.prototype.trim`
(WhiteSpace and LineTerminator code points), by code point. -/
def isJsWhitespace (c : Char) : Bool :=
  c.toNat = 32 || c.toNat = 9 || c.toNat = 10 || c.toNat = 11 ||
  c.toNat = 12 || c.toNat = 13 ||
  c.toNat = 0x00A0 || c.toNat = 0x1680 ||
  (0x2000 ≤ c.toNat && c.toNat ≤ 0x200A) ||
  c.toNat = 0x2028 || c.toNat = 0x2029 || c.toNat = 0x202F ||
  c.toNat = 0x205F || c.toNat = 0x3000 || c.toNat = 0xFEFF

/-- JavaScript regex `\w`: `[A-Za-z0-9_]`, by code point. -/
def isWordChar (c : Char) : Bool :=
  (97 ≤ c.toNat && c.toNat ≤ 122) || (65 ≤ c.toNat && c.toNat ≤ 90) ||
  (48 ≤ c.toNat && c.toNat ≤ 57) || c.toNat = 95

/-- Character kept by `.replace(/[\n\r]/g, '')`: everything that is not
LF (10) or CR (13). -/
def keepChar (c : Char) : Bool :=
  !(c.toNat = 10 || c.toNat = 13)

/-- JavaScript `message.trim()`: drop leading whitespace, then drop
trailing whitespace (implemented by reversing, dropping, reversing). -/
def jsTrimList (l : List Char) : List Char :=
  (((l.dropWhile isJsWhitespace).reverse.dropWhile isJsWhitespace)).reverse

/-- JavaScript `.replace(/[\n\r]/g, '')`: remove every LF and CR. -/
def stripNewlines (l : List Char) : List Char :=
  l.filter keepChar

/-- JavaScript `.replace(/(\w)\.$/, '$1')`: if the string ends with a
word character immediately followed by a period, remove that single
trailing period; otherwise leave the string unchanged. -/
def dropTrailingPeriod (l : List Char) : List Char :=
  match l.reverse with
  | a :: c :: rest => if a == '.' && isWordChar c then (c :: rest).reverse else l
  | _ => l

/-- `sanitizeMessage` from `src/utils/openai.ts` (lines 200-204) and,
identically, from the SDK variant:
`message.trim().replace(/[\n\r]/g, '').replace(/(\w)\.$/, '$1')`. -/
def sanitizeMessage (message : String) : String :=
  ⟨dropTrailingPeriod (stripNewlines (jsTrimList message.data))⟩

/-- Membership test of a JavaScript `Set` of strings (SameValueZero on
strings is string equality). -/
def setHas (acc : List String) (s : String) : Bool :=
  acc.any (fun t => t == s)

/-- `deduplicateMessages` from the source:
`Array.from(new Set(array))`.  A JS `Set` iterates in insertion order,
so the result is built by a left fold that appends each element not
already present. -/
def deduplicateMessages (array : List String) : List String :=
  array.foldl (fun acc s => if setHas acc s then acc else acc ++ [s]) []

/-- Specification-side description of first-occurrence deduplication:
keep the head, delete its later duplicates, recurse. -/
def keepFirsts : List String → List String
  | [] => []
  | x :: xs => x :: keepFirsts (xs.filter (fun y => y != x))
termination_by l => l.length
decreasing_by
  simp only [List.length_cons]
  exact Nat.lt_succ_of_le (List.length_filter_le _ _)

/-- Boolean test used to state sanitization invariants: the string ends
with a word character immediately followed by a period (the pattern the
trailing-period rule removes). -/
def endsWithWordDot (l : List Char) : Bool :=
  match l.reverse with
  | a :: c :: _ => a == '.' && isWordChar c
  | _ => false

/-- Boolean test: neither the first nor the last character is
JavaScript whitespace. -/
def noEdgeWhitespace (l : List Char) : Bool :=
  (match l.head? with
   | some c => !isJsWhitespace c
   | none => true) &&
  (match l.getLast? with
   | some c => !isJsWhitespace c
   | none => true)

/-! ### Substring search (JavaScript `String.prototype.includes`) -/

/-- The pattern (first argument) is a prefix of the text (second
argument). -/
def leadsWith : List Char → List Char → Bool
  | [], _ => true
  | _ :: _, [] => false
  | p :: ps, c :: cs => p == c && leadsWith ps cs

/-- The pattern occurs contiguously somewhere in the text. -/
def occursIn (pat : List Char) : List Char → Bool
  | [] => leadsWith pat []
  | c :: cs => leadsWith pat (c :: cs) || occursIn pat cs

/-- JavaScript `s.includes(pat)` (case-sensitive substring search). -/
def strIncludes (s pat : String) : Bool :=
  occursIn pat.data s.data

/-! ### Data model of the wire response -/

/-- A `message` object inside a `choices` entry; `content` is `none`
when the field is absent or `null`. -/
structure ChatMessage where
  content : Option String
deriving DecidableEq, Repr

/-- One entry of the `choices` array; `message` is `none` when the
field is absent. -/
structure Choice where
  message : Option ChatMessage
deriving DecidableEq, Repr

/-- The parsed shape of a successful chat-completion response body. -/
structure ChatResponse where
  choices : List Choice
deriving DecidableEq, Repr

/-- JavaScript truthiness of `choice.message?.content`: the message
object exists, its content exists, and the content is a non-empty
string. -/
def choiceHasContent (ch : Choice) : Bool :=
  match ch.message with
  | some m =>
    match m.content with
    | some c => c != ""
    | none => false
  | none => false

/-- `choice.message!.content as string` (the non-null assertion after
the truthiness filter); absent content collapses to `""`, which the
filter has already ruled out. -/
def choiceContent (ch : Choice) : String :=
  match ch.message with
  | some m => m.content.getD ""
  | none => ""

/-! ### Errors and transport attempts -/

/-- A JavaScript error as observed by the retry loop and the outer
catch blocks: `known` records whether it is an instance of
`KnownError`; `code`, `hostname` and `syscall` model the extra
properties a raw Node socket error may carry. -/
structure Err where
  known : Bool
  message : String
  code : Option String := none
  hostname : String := ""
  syscall : String := ""
deriving DecidableEq, Repr

/-- Construction of a `KnownError` with the given message. -/
def KnownError (message : String) : Err :=
  { known := true, message := message }

/-- Status line of an HTTP response; `statusCode` is `none` when the
field is `undefined`. -/
structure HttpResponse where
  statusCode : Option Nat
  statusMessage : String
deriving DecidableEq, Repr

/-- The raw response body together with the outcome of `JSON.parse`
on it: `parsed = none` models a body that is not valid JSON (the parse
throws), and `parseErrMsg` is the message of the `SyntaxError` the
platform's `JSON.parse` would throw on this body. -/
structure Body where
  text : String
  parsed : Option ChatResponse
  parseErrMsg : String := ""
deriving DecidableEq, Repr

/-- Result of one `httpsPost` call: the promise either resolves with a
response and its body, or rejects with an error. -/
inductive AttemptOutcome where
  | resolved (resp : HttpResponse) (body : Body)
  | rejected (e : Err)
deriving DecidableEq, Repr

/-- Rendering of `statusCode` inside a template literal:
`undefined` prints as the string "undefined". -/
def statusCodeStr : Option Nat → String
  | some n => toString n
  | none => "undefined"

/-- The error message built by `createChatCompletion` for a non-2xx
response (lines 151-159): the status line, the body when non-empty,
and an extra API-status hint exactly when the status is 500. -/
def apiErrorMessage (resp : HttpResponse) (data : String) : String :=
  let base := "OpenAI API Error: " ++ statusCodeStr resp.statusCode ++ " - "
    ++ resp.statusMessage
  let withData := if data ≠ "" then base ++ "\n\n" ++ data else base
  if resp.statusCode = some 500 then
    withData ++ "\n\nCheck the API status: https://status.openai.com"
  else withData

/-- The success test of lines 146-150: `statusCode` is present and lies
in 200..299. -/
def is2xx : Option Nat → Bool
  | some n => 200 ≤ n && n ≤ 299
  | none => false

/-- Processing of one attempt inside the `try` block (lines 134-164):
a rejected post re-throws its error; a non-2xx response throws a
`KnownError` with `apiErrorMessage`; a 2xx response is `JSON.parse`d,
throwing the platform `SyntaxError` when the body is not valid JSON. -/
def runAttempt : AttemptOutcome → Except Err ChatResponse
  | .rejected e => .error e
  | .resolved resp body =>
    if is2xx resp.statusCode then
      match body.parsed with
      | some r => .ok r
      | none => .error { known := false, message := body.parseErrMsg }
    else
      .error (KnownError (apiErrorMessage resp body.text))

/-- The retry condition of lines 179-184: the error message contains
one of the network-related substrings. -/
def isNetworkError (msg : String) : Bool :=
  strIncludes msg "TLS" || strIncludes msg "socket disconnected" ||
  strIncludes msg "ECONNRESET" || strIncludes msg "ETIMEDOUT" ||
  strIncludes msg "ENOTFOUND"

/-- The no-retry condition of line 169: a `KnownError` whose message
contains "401". -/
def isAuthError (e : Err) : Bool :=
  e.known && strIncludes e.message "401"

/-- The backoff of line 191: `Math.min(1000 * Math.pow(2, attempt), 5000)`. -/
def backoffDelay (attempt : Nat) : Nat :=
  min (1000 * 2 ^ attempt) 5000

/-- An attempt result that the retry loop treats as retryable: an
error that is not the 401 case and whose message passes the
network-error test.  This is the code's own classification of
"retryable", applied to the outcome of one attempt. -/
def failsRetryably : Except Err ChatResponse → Bool
  | .error e => isNetworkError e.message && !isAuthError e
  | .ok _ => false

/-- Observable behaviour of one `createChatCompletion` call: the value
returned or error thrown, the number of transport attempts performed,
and the backoff delays waited between attempts, in order. -/
structure RunResult where
  result : Except Err ChatResponse
  attemptsMade : Nat
  delays : List Nat
deriving Repr

/-- The `for (let attempt = 0; attempt <= retries; attempt++)` loop of
`createChatCompletion` (lines 130-197), driven by an oracle `outcomes`
giving the transport result of each attempt.  `remaining` is
`retries - attempt`.  On an error: the 401 check throws first; with no
attempts remaining the loop breaks and throws the error as `lastError`
(both give the same observable outcome, so the branches are merged);
otherwise a non-network error is re-thrown, and a network error waits
`backoffDelay attempt` and re-enters the loop. -/
def runAttempts (outcomes : Nat → AttemptOutcome) (attempt : Nat) :
    Nat → RunResult
  | 0 =>
    match runAttempt (outcomes attempt) with
    | .ok r => ⟨.ok r, 1, []⟩
    | .error e => ⟨.error e, 1, []⟩
  | remaining + 1 =>
    match runAttempt (outcomes attempt) with
    | .ok r => ⟨.ok r, 1, []⟩
    | .error e =>
      if isAuthError e then ⟨.error e, 1, []⟩
      else if !isNetworkError e.message then ⟨.error e, 1, []⟩
      else
        let rest := runAttempts outcomes (attempt + 1) remaining
        ⟨rest.result, rest.attemptsMade + 1, backoffDelay attempt :: rest.delays⟩

/-- `createChatCompletion(apiKey, json, timeout, proxy, retries,
insecureTls)`: the full retry loop starting at attempt 0, with the
transport modelled by the `outcomes` oracle. -/
def createChatCompletion (outcomes : Nat → AttemptOutcome)
    (retries : Nat) : RunResult :=
  runAttempts outcomes 0 retries

/-- The error of attempt `i` (the `lastError` surfaced when the loop
exhausts at attempt `i`); the fallback mirrors line 197's
`new KnownError('All connection attempts failed')`, reachable in the
source only when no attempt ran. -/
def errOf (outcomes : Nat → AttemptOutcome) (i : Nat) : Err :=
  match runAttempt (outcomes i) with
  | .error e => e
  | .ok _ => KnownError "All connection attempts failed"

/-- Response post-processing of lines 267-271: keep the choices with
truthy `message?.content`, sanitize each content, deduplicate. -/
def extractMessages (r : ChatResponse) : List String :=
  deduplicateMessages
    ((r.choices.filter choiceHasContent).map
      (fun ch => sanitizeMessage (choiceContent ch)))

/-- `generateCommitMessage` from `src/utils/openai.ts` (lines 225-282):
run `createChatCompletion` (whose `retries` parameter defaults to 2
when the caller passes none), post-process a success, and re-wrap an
error carrying `code === 'ENOTFOUND'`. -/
def generateCommitMessage (outcomes : Nat → AttemptOutcome)
    (retries : Option Nat) : Except Err (List String) :=
  match (createChatCompletion outcomes (retries.getD 2)).result with
  | .ok completion => .ok (extractMessages completion)
  | .error e =>
    if e.code = some "ENOTFOUND" then
      .error (KnownError ("Error connecting to " ++ e.hostname ++ " ("
        ++ e.syscall ++ "). Are you connected to the internet?"))
    else .error e

/-! ### Error message construction inside `httpsPost` -/

/-- The message of the `KnownError` rejected by the `timeout` handler
of `httpsPost` (lines 87-94); the identical template also appears in
the SDK variant's timeout branch. -/
def timeoutMessage (timeout : Nat) : String :=
  "Request timed out after " ++ toString timeout ++
  "ms. Try increasing the timeout with: aicommits config set timeout=<milliseconds> or check the OpenAI API status at https://status.openai.com"

/-- The message rewriting of the `request.on('error')` handler of
`httpsPost` (lines 66-84): known socket error codes and TLS-handshake
text are replaced by friendly diagnostics; anything else keeps its raw
message. -/
def rewriteErrorMessage (hostname : String) (code : Option String)
    (message : String) : String :=
  if code = some "ECONNRESET" then
    "Connection was reset by the server. This might be due to network issues or server overload."
  else if code = some "ENOTFOUND" then
    "Cannot resolve hostname " ++ hostname ++ ". Please check your internet connection."
  else if code = some "ETIMEDOUT" then
    "Connection timed out. Please check your network connection and try again."
  else if code = some "ECONNREFUSED" then
    "Connection refused by " ++ hostname ++ ". The server might be down or unreachable."
  else if code = some "CERT_HAS_EXPIRED" || code = some "UNABLE_TO_VERIFY_LEAF_SIGNATURE" then
    "SSL certificate verification failed. This might be due to an outdated certificate or network security settings."
  else if strIncludes message "socket disconnected before secure TLS connection was established" then
    "TLS handshake failed. This could be due to network issues, proxy settings, or firewall restrictions. Try checking your network configuration or using a different network."
  else message

/-- The request options built by `httpsPost` (lines 33-51).  The
`headers` object (a merge of caller headers with Content-Type and
Content-Length) is not modelled, being irrelevant to every claim. -/
structure RequestOptions where
  port : Nat
  hostname : String
  path : String
  method : String
  timeout : Nat
  agent : Option String
  secureProtocol : String
  rejectUnauthorized : Bool
  keepAlive : Bool
  keepAliveMsecs : Nat
deriving DecidableEq, Repr

/-- Construction of the per-request options object of `httpsPost`:
certificate verification is controlled by `rejectUnauthorized :=
!insecureTls` on this one request; no process-global state exists on
this path. -/
def mkRequestOptions (hostname path : String) (timeout : Nat)
    (proxy : Option String) (insecureTls : Bool) : RequestOptions :=
  { port := 443
    hostname := hostname
    path := path
    method := "POST"
    timeout := timeout
    agent := proxy
    secureProtocol := "TLSv1_2_method"
    rejectUnauthorized := !insecureTls
    keepAlive := true
    keepAliveMsecs := 1000 }

/-! ### The SDK-backed variant of `generateCommitMessage` -/

/-- An error thrown by the OpenAI SDK call, as inspected by the catch
block of the SDK variant: instance flags, HTTP status, message and raw
socket properties. -/
structure SdkError where
  isAPIError : Bool
  isAPIConnectionError : Bool
  isOpenAIError : Bool
  status : Option Nat
  message : String
  code : Option String := none
  hostname : String := ""
  syscall : String := ""
deriving DecidableEq, Repr

/-- The detail text appended for `APIConnectionError`s (SDK variant
lines 113-137). -/
def connectionDetail (msg : String) : String :=
  if strIncludes msg "ENOTFOUND" then
    "DNS resolution failed. Please check your internet connection."
  else if strIncludes msg "ECONNREFUSED" then
    "Connection refused. Please check your network connection and firewall settings."
  else if strIncludes msg "ETIMEDOUT" then
    "Connection timed out. Please check your network connection or try increasing the timeout."
  else if strIncludes msg "socket disconnected" || strIncludes msg "TLS" then
    "TLS connection failed. This could be due to:\n  • Network connectivity issues\n  • Proxy or firewall blocking the connection\n  • Corporate network restrictions\n  • DNS resolution problems\n\nTry:\n  • Checking your internet connection\n  • Configuring a proxy if needed: aicommits config set proxy=<proxy-url>\n  • Increasing timeout: aicommits config set timeout=<milliseconds>\n  • Using a different network"
  else msg

/-- The error mapping of the SDK variant's catch block (lines 91-161),
after the TLS cleanup: APIError statuses, connection errors, timeouts,
other SDK errors, raw ENOTFOUND, and finally the original error
re-thrown unchanged. -/
def mapSdkError (timeout : Nat) (e : SdkError) : Err :=
  if e.isAPIError then
    if e.status = some 401 then
      KnownError "Invalid OpenAI API key. Please check your API key with: aicommits config get OPENAI_KEY"
    else if e.status = some 429 then
      KnownError "OpenAI API rate limit exceeded. Please try again later or check your usage at https://platform.openai.com/usage"
    else if e.status = some 500 then
      KnownError "OpenAI API server error. Please try again later or check the API status at https://status.openai.com"
    else
      KnownError ("OpenAI API Error (" ++ statusCodeStr e.status ++ "): " ++ e.message)
  else if e.isAPIConnectionError then
    KnownError ("Failed to connect to OpenAI API. " ++ connectionDetail e.message)
  else if strIncludes e.message "timeout" || strIncludes e.message "ETIMEDOUT" then
    KnownError (timeoutMessage timeout)
  else if e.isOpenAIError then
    KnownError ("OpenAI Error: " ++ e.message)
  else if e.code = some "ENOTFOUND" then
    KnownError ("Error connecting to " ++ e.hostname ++ " (" ++ e.syscall
      ++ "). Are you connected to the internet?")
  else
    { known := false, message := e.message, code := e.code,
      hostname := e.hostname, syscall := e.syscall }

/-- The SDK-backed `generateCommitMessage` (unnamed source file,
lines 15-163), with the awaited SDK call modelled as an oracle
`outcome` and the process environment variable
`NODE_TLS_REJECT_UNAUTHORIZED` as explicit state (`true` = the
variable is set, i.e. certificate verification is globally disabled).
When `insecureTls` is set the variable is written before the call
(line 49) and deleted both on the success path (line 77) and at the
top of the catch block (line 88). -/
def generateCommitMessageSdk (insecureTls : Bool) (timeout : Nat)
    (outcome : Except SdkError ChatResponse) (env0 : Bool) :
    Except Err (List String) × Bool :=
  let env1 := if insecureTls then true else env0
  match outcome with
  | .ok completion =>
    let env2 := if insecureTls then false else env1
    (.ok (extractMessages completion), env2)
  | .error e =>
    let env2 := if insecureTls then false else env1
    (.error (mapSdkError timeout e), env2)

/-! ### Concrete attempt oracles used as witnesses -/

/-- Every attempt fails with a TLS-handshake error (a message the
retry condition recognises as network-related). -/
def tlsFailOutcome : Nat → AttemptOutcome :=
  fun _ => .rejected (KnownError "TLS handshake failed. This could be due to network issues, proxy settings, or firewall restrictions. Try checking your network configuration or using a different network.")

/-- Every attempt resolves with a plain HTTP 500 response and an empty
body. -/
def serverErrorOutcome : Nat → AttemptOutcome :=
  fun _ => .resolved { statusCode := some 500, statusMessage := "Internal Server Error" }
    { text := "", parsed := none, parseErrMsg := "" }

/-- Every attempt resolves with an HTTP 503 response whose body quotes
an upstream ECONNRESET. -/
def serverErrorResetOutcome : Nat → AttemptOutcome :=
  fun _ => .resolved { statusCode := some 503, statusMessage := "Service Unavailable" }
    { text := "upstream connect error: ECONNRESET", parsed := none, parseErrMsg := "" }

/-- Every attempt rejects with the `httpsPost` timeout error for the
default 10000 ms budget. -/
def timedOutOutcome : Nat → AttemptOutcome :=
  fun _ => .rejected (KnownError (timeoutMessage 10000))

/-- Every attempt resolves with a 401 response. -/
def authFailOutcome : Nat → AttemptOutcome :=
  fun _ => .resolved { statusCode := some 401, statusMessage := "Unauthorized" }
    { text := "\x7b\"error\": \"invalid key\"\x7d", parsed := none,
      parseErrMsg := "" }

/-- Every attempt resolves with a 200 response whose body is not valid
JSON. -/
def malformedOutcome : Nat → AttemptOutcome :=
  fun _ => .resolved { statusCode := some 200, statusMessage := "OK" }
    { text := "<html>Bad Gateway</html>", parsed := none,
      parseErrMsg := "Unexpected token < in JSON at position 0" }

/-- Every attempt resolves with a 200 response parsing to three choices
that all lack usable content. -/
def emptyChoicesOutcome : Nat → AttemptOutcome :=
  fun _ => .resolved { statusCode := some 200, statusMessage := "OK" }
    { text := "\x7b\"choices\": []\x7d",
      parsed := some { choices :=
        [ { message := none },
          { message := some { content := none } },
          { message := some { content := some "" } } ] },
      parseErrMsg := "" }



/-! ### Lemmas: characters -/

/-- A character kept by the word-character test is not JavaScript
whitespace. -/
theorem not_ws_of_wordChar {c : Char} (h : isWordChar c = true) :
    isJsWhitespace c = false := by
  simp only [isWordChar, Bool.or_eq_true, Bool.and_eq_true,
    decide_eq_true_eq] at h
  simp only [isJsWhitespace, Bool.or_eq_false_iff, Bool.and_eq_false_iff,
    decide_eq_false_iff_not]
  omega

/-- A character that is not JavaScript whitespace survives the
newline-stripping filter. -/
theorem keepChar_of_not_ws {c : Char} (h : isJsWhitespace c = false) :
    keepChar c = true := by
  simp only [isJsWhitespace, Bool.or_eq_false_iff,
    decide_eq_false_iff_not] at h
  simp only [keepChar, Bool.or_eq_false_iff, decide_eq_false_iff_not,
    Bool.not_eq_true']
  omega

/-- A word character is not a period. -/
theorem wordChar_ne_period {c : Char} (h : isWordChar c = true) :
    (c == '.') = false := by
  by_cases hc : c = '.'
  · subst hc; exact absurd h (by decide)
  · exact beq_eq_false_iff_ne.mpr hc

/-! ### Lemmas: dropWhile, filter, head and last -/

/-- The head of a `dropWhile` result fails the dropped predicate. -/
theorem head_of_dropWhile_false {α : Type} (p : α → Bool) (l : List α)
    {c : α} (h : (l.dropWhile p).head? = some c) : p c = false := by
  have hm := List.head?_dropWhile_not p l
  rw [h] at hm
  exact hm

/-- `dropWhile` is the identity when the head already fails the
predicate. -/
theorem dropWhile_eq_self_of_head {α : Type} {p : α → Bool}
    {l : List α} (h : ∀ c, l.head? = some c → p c = false) :
    l.dropWhile p = l := by
  cases l with
  | nil => rfl
  | cons a t => simp [List.dropWhile_cons, h a rfl]

/-- A kept head survives filtering at the head. -/
theorem head?_filter_of_head {α : Type} {p : α → Bool} {l : List α}
    {a : α} (hh : l.head? = some a) (hk : p a = true) :
    (l.filter p).head? = some a := by
  cases l with
  | nil => cases hh
  | cons x t =>
    have hx : x = a := by simpa using hh
    subst hx
    simp [List.filter_cons, hk]

/-! ### Lemmas: edge-whitespace bookkeeping -/

/-- Introduction rule for `noEdgeWhitespace`. -/
theorem noEdge_intro {l : List Char}
    (h1 : ∀ c, l.head? = some c → isJsWhitespace c = false)
    (h2 : ∀ c, l.getLast? = some c → isJsWhitespace c = false) :
    noEdgeWhitespace l = true := by
  unfold noEdgeWhitespace
  cases hh : l.head? with
  | none =>
    cases hg : l.getLast? with
    | none => rfl
    | some c => simp [h2 c hg]
  | some c =>
    cases hg : l.getLast? with
    | none => simp [h1 c hh]
    | some c2 => simp [h1 c hh, h2 c2 hg]

/-- Elimination at the head. -/
theorem noEdge_head {l : List Char} (h : noEdgeWhitespace l = true) :
    ∀ c, l.head? = some c → isJsWhitespace c = false := by
  intro c hc
  unfold noEdgeWhitespace at h
  rw [hc] at h
  cases hg : l.getLast? with
  | none => rw [hg] at h; simpa using h
  | some c2 =>
    rw [hg] at h
    simp only [Bool.and_eq_true] at h
    simpa using h.1

/-- Elimination at the last element. -/
theorem noEdge_getLast {l : List Char} (h : noEdgeWhitespace l = true) :
    ∀ c, l.getLast? = some c → isJsWhitespace c = false := by
  intro c hc
  unfold noEdgeWhitespace at h
  rw [hc] at h
  cases hg : l.head? with
  | none => rw [hg] at h; simpa using h
  | some c2 =>
    rw [hg] at h
    simp only [Bool.and_eq_true] at h
    simpa using h.2

/-! ### Lemmas: trimming -/

/-- The result of `jsTrimList` has no whitespace at either edge. -/
theorem jsTrimList_noEdge (l : List Char) :
    noEdgeWhitespace (jsTrimList l) = true := by
  apply noEdge_intro
  · intro c hc
    simp only [jsTrimList, List.head?_reverse] at hc
    have hsplit := List.takeWhile_append_dropWhile (p := isJsWhitespace)
      (l := (l.dropWhile isJsWhitespace).reverse)
    have hlast : ((l.dropWhile isJsWhitespace).reverse).getLast? = some c := by
      rw [← hsplit, List.getLast?_append, hc]
      rfl
    rw [List.getLast?_reverse] at hlast
    exact head_of_dropWhile_false _ _ hlast
  · intro c hc
    simp only [jsTrimList, List.getLast?_reverse] at hc
    exact head_of_dropWhile_false _ _ hc

/-- Trimming a string with clean edges changes nothing. -/
theorem jsTrimList_eq_self {l : List Char}
    (h : noEdgeWhitespace l = true) : jsTrimList l = l := by
  have e1 : l.dropWhile isJsWhitespace = l :=
    dropWhile_eq_self_of_head (noEdge_head h)
  have e2 : l.reverse.dropWhile isJsWhitespace = l.reverse := by
    apply dropWhile_eq_self_of_head
    intro c hc
    rw [List.head?_reverse] at hc
    exact noEdge_getLast h c hc
  simp only [jsTrimList, e1, e2, List.reverse_reverse]

/-! ### Lemmas: newline stripping -/

/-- Every character surviving `stripNewlines` passes `keepChar`. -/
theorem stripNewlines_all_keep (l : List Char) :
    ∀ c ∈ stripNewlines l, keepChar c = true :=
  fun _ hc => (List.mem_filter.mp hc).2

/-- Stripping a string without newlines changes nothing. -/
theorem stripNewlines_eq_self {l : List Char}
    (h : ∀ c ∈ l, keepChar c = true) : stripNewlines l = l :=
  List.filter_eq_self.mpr h

/-- Newline stripping preserves clean edges: LF and CR are whitespace,
so a non-whitespace edge character is kept and stays at its edge. -/
theorem stripNewlines_noEdge {l : List Char}
    (h : noEdgeWhitespace l = true) :
    noEdgeWhitespace (stripNewlines l) = true := by
  apply noEdge_intro
  · intro c hc
    cases hh : l.head? with
    | none =>
      rw [List.head?_eq_none_iff] at hh
      subst hh
      cases hc
    | some a =>
      have ha := noEdge_head h a hh
      have hk := keepChar_of_not_ws ha
      have := head?_filter_of_head hh hk
      rw [stripNewlines] at hc
      rw [this] at hc
      cases hc
      exact ha
  · intro c hc
    cases hg : l.getLast? with
    | none =>
      rw [List.getLast?_eq_none_iff] at hg
      subst hg
      cases hc
    | some a =>
      have ha := noEdge_getLast h a hg
      have hk := keepChar_of_not_ws ha
      have hh : l.reverse.head? = some a := by
        rw [List.head?_reverse]; exact hg
      have hfil := head?_filter_of_head hh hk
      rw [List.filter_reverse] at hfil
      rw [List.head?_reverse] at hfil
      rw [stripNewlines] at hc
      rw [hfil] at hc
      cases hc
      exact ha

/-! ### Lemmas: the trailing-period rule -/

/-- When the string does not end in a word character followed by a
period, the rule changes nothing. -/
theorem dropTrailingPeriod_eq_self {l : List Char}
    (h : endsWithWordDot l = false) : dropTrailingPeriod l = l := by
  rcases hrev : l.reverse with _ | ⟨a, _ | ⟨c, rest⟩⟩
  · simp [dropTrailingPeriod, hrev]
  · simp [dropTrailingPeriod, hrev]
  · simp only [endsWithWordDot, hrev] at h
    simp [dropTrailingPeriod, hrev, h]

/-- The rule never produces a string that again ends in a word
character followed by a period. -/
theorem endsWithWordDot_dropTrailingPeriod (l : List Char) :
    endsWithWordDot (dropTrailingPeriod l) = false := by
  rcases hrev : l.reverse with _ | ⟨a, _ | ⟨c, rest⟩⟩
  · have hl : l = [] := by
      have := congrArg List.reverse hrev
      simpa using this
    subst hl
    rfl
  · have hl : l = [a] := by
      have := congrArg List.reverse hrev
      simpa using this
    subst hl
    rfl
  · by_cases hcond : (a == '.' && isWordChar c) = true
    · simp only [dropTrailingPeriod, hrev, hcond, if_true]
      simp only [endsWithWordDot, List.reverse_reverse]
      cases rest with
      | nil => rfl
      | cons r rs =>
        have hw : isWordChar c = true := by
          have h2 := hcond
          simp only [Bool.and_eq_true] at h2
          exact h2.2
        simp [wordChar_ne_period hw]
    · have hF : (a == '.' && isWordChar c) = false := by
        simpa using hcond
      simp [dropTrailingPeriod, endsWithWordDot, hrev, hF]

/-- Every character of the rule's output came from its input. -/
theorem mem_of_mem_dropTrailingPeriod {x : Char} {l : List Char}
    (h : x ∈ dropTrailingPeriod l) : x ∈ l := by
  rcases hrev : l.reverse with _ | ⟨a, _ | ⟨c, rest⟩⟩
  · simpa [dropTrailingPeriod, hrev] using h
  · simpa [dropTrailingPeriod, hrev] using h
  · by_cases hcond : (a == '.' && isWordChar c) = true
    · simp only [dropTrailingPeriod, hrev, hcond, if_true] at h
      rw [List.mem_reverse] at h
      have h3 : x ∈ l.reverse := by
        rw [hrev]
        exact List.mem_cons_of_mem a h
      rwa [List.mem_reverse] at h3
    · have hF : (a == '.' && isWordChar c) = false := by
        simpa using hcond
      simpa [dropTrailingPeriod, hrev, hF] using h

/-- The rule does not change the first character. -/
theorem head?_dropTrailingPeriod (l : List Char) :
    (dropTrailingPeriod l).head? = l.head? := by
  rcases hrev : l.reverse with _ | ⟨a, _ | ⟨c, rest⟩⟩
  · simp [dropTrailingPeriod, hrev]
  · simp [dropTrailingPeriod, hrev]
  · by_cases hcond : (a == '.' && isWordChar c) = true
    · simp only [dropTrailingPeriod, hrev, hcond, if_true]
      have hl : l = (c :: rest).reverse ++ [a] := by
        have h0 := congrArg List.reverse hrev
        rw [List.reverse_reverse] at h0
        rw [h0]
        simp [List.reverse_cons]
      rw [hl, List.head?_append]
      cases hx : ((c :: rest).reverse).head? with
      | none =>
        exfalso
        rw [List.head?_eq_none_iff] at hx
        exact absurd (congrArg List.length hx) (by simp)
      | some y => simp [Option.or]
    · have hF : (a == '.' && isWordChar c) = false := by
        simpa using hcond
      simp [dropTrailingPeriod, hrev, hF]

/-- When the rule fires, the exposed last character is the word
character that preceded the removed period. -/
theorem getLast?_dropTrailingPeriod_fire {l : List Char} {a c : Char}
    {rest : List Char} (hrev : l.reverse = a :: c :: rest)
    (hcond : (a == '.' && isWordChar c) = true) :
    (dropTrailingPeriod l).getLast? = some c := by
  simp [dropTrailingPeriod, hrev, hcond]

/-- The rule preserves clean edges: the head is untouched, and a fired
rule exposes a word character, which is not whitespace. -/
theorem dropTrailingPeriod_noEdge {l : List Char}
    (h : noEdgeWhitespace l = true) :
    noEdgeWhitespace (dropTrailingPeriod l) = true := by
  apply noEdge_intro
  · intro x hx
    rw [head?_dropTrailingPeriod] at hx
    exact noEdge_head h x hx
  · intro x hx
    rcases hrev : l.reverse with _ | ⟨a, _ | ⟨c, rest⟩⟩
    · have he : dropTrailingPeriod l = l := by simp [dropTrailingPeriod, hrev]
      rw [he] at hx
      exact noEdge_getLast h x hx
    · have he : dropTrailingPeriod l = l := by simp [dropTrailingPeriod, hrev]
      rw [he] at hx
      exact noEdge_getLast h x hx
    · by_cases hcond : (a == '.' && isWordChar c) = true
      · have hg := getLast?_dropTrailingPeriod_fire hrev hcond
        rw [hg] at hx
        have hcx : c = x := by simpa using hx
        subst hcx
        have hw : isWordChar c = true := by
          simp only [Bool.and_eq_true] at hcond
          exact hcond.2
        exact not_ws_of_wordChar hw
      · have hF : (a == '.' && isWordChar c) = false := by
          simpa using hcond
        have he : dropTrailingPeriod l = l := by
          simp [dropTrailingPeriod, hrev, hF]
        rw [he] at hx
        exact noEdge_getLast h x hx

/-! ### Lemmas: sanitization invariants -/

/-- The character list underlying `sanitizeMessage`. -/
theorem sanitizeMessage_data (s : String) :
    (sanitizeMessage s).data
      = dropTrailingPeriod (stripNewlines (jsTrimList s.data)) := rfl

/-- The sanitized string contains no LF or CR. -/
theorem sanitizeMessage_noNewline (s : String) :
    (sanitizeMessage s).data.all keepChar = true := by
  rw [List.all_eq_true]
  intro c hc
  rw [sanitizeMessage_data] at hc
  exact stripNewlines_all_keep _ c (mem_of_mem_dropTrailingPeriod hc)

/-- The sanitized string has no whitespace at either edge. -/
theorem sanitizeMessage_noEdge (s : String) :
    noEdgeWhitespace (sanitizeMessage s).data = true := by
  rw [sanitizeMessage_data]
  exact dropTrailingPeriod_noEdge (stripNewlines_noEdge (jsTrimList_noEdge _))

/-- The sanitized string never ends in a word character followed by a
period. -/
theorem sanitizeMessage_noWordDot (s : String) :
    endsWithWordDot (sanitizeMessage s).data = false := by
  rw [sanitizeMessage_data]
  exact endsWithWordDot_dropTrailingPeriod _

/-! ### Lemmas: deduplication -/

/-- `setHas` is membership. -/
theorem setHas_iff {acc : List String} {s : String} :
    setHas acc s = true ↔ s ∈ acc := by
  simp [setHas, List.any_eq_true]

/-- How the insertion-ordered-set fold relates to `keepFirsts`: the
elements already present in the accumulator are skipped, and the rest
are the first occurrences of the remainder. -/
theorem dedup_fold_eq (l : List String) : ∀ acc : List String,
    l.foldl (fun acc s => if setHas acc s then acc else acc ++ [s]) acc
      = acc ++ keepFirsts (l.filter (fun y => !setHas acc y)) := by
  induction l with
  | nil => intro acc; simp [keepFirsts]
  | cons x xs ih =>
    intro acc
    by_cases hx : setHas acc x = true
    · rw [List.foldl_cons]
      simp only [hx, if_true]
      rw [ih acc]
      congr 2
      simp [List.filter_cons, hx]
    · have hx0 : setHas acc x = false := by simpa using hx
      rw [List.foldl_cons]
      simp only [hx0, Bool.false_eq_true, if_false]
      rw [ih (acc ++ [x])]
      have hfil : (x :: xs).filter (fun y => !setHas acc y)
          = x :: xs.filter (fun y => !setHas acc y) := by
        simp [List.filter_cons, hx0]
      rw [hfil]
      rw [keepFirsts]
      have hfil2 : (xs.filter (fun y => !setHas acc y)).filter (fun y => y != x)
          = xs.filter (fun y => !setHas (acc ++ [x]) y) := by
        rw [List.filter_filter]
        apply List.filter_congr
        intro y _
        by_cases hyx : y = x
        · subst hyx
          simp [setHas, List.any_append]
        · have h1 : (y != x) = true := bne_iff_ne.mpr hyx
          have h2 : (x == y) = false := beq_eq_false_iff_ne.mpr (Ne.symm hyx)
          simp [setHas, List.any_append, h1, h2]
      rw [hfil2]
      simp

/-- The source's fold equals first-occurrence deduplication. -/
theorem deduplicateMessages_eq_keepFirsts (l : List String) :
    deduplicateMessages l = keepFirsts l := by
  have h := dedup_fold_eq l []
  have hfil : l.filter (fun y => !setHas [] y) = l := by
    apply List.filter_eq_self.mpr
    intro a _
    rfl
  rw [hfil] at h
  simpa [deduplicateMessages] using h

/-- Membership in `keepFirsts` is membership in the input. -/
theorem mem_keepFirsts (l : List String) (s : String) :
    s ∈ keepFirsts l ↔ s ∈ l := by
  induction l using keepFirsts.induct with
  | case1 => simp [keepFirsts]
  | case2 x xs ih =>
    rw [keepFirsts]
    constructor
    · intro h
      rcases List.mem_cons.mp h with rfl | h2
      · exact List.mem_cons_self _ _
      · exact List.mem_cons_of_mem _ (List.mem_filter.mp (ih.mp h2)).1
    · intro h
      rcases List.mem_cons.mp h with rfl | h2
      · exact List.mem_cons_self _ _
      · by_cases hsx : s = x
        · subst hsx; exact List.mem_cons_self _ _
        · refine List.mem_cons_of_mem _ (ih.mpr ?_)
          exact List.mem_filter.mpr ⟨h2, bne_iff_ne.mpr hsx⟩

/-- `keepFirsts` returns pairwise-distinct strings. -/
theorem nodup_keepFirsts (l : List String) : (keepFirsts l).Nodup := by
  induction l using keepFirsts.induct with
  | case1 => simp [keepFirsts]
  | case2 x xs ih =>
    rw [keepFirsts]
    refine List.nodup_cons.mpr ⟨?_, ih⟩
    intro hmem
    have h1 := (mem_keepFirsts _ _).mp hmem
    have h2 := (List.mem_filter.mp h1).2
    simp at h2

/-- `keepFirsts` is a sublist of its input (relative order is
preserved). -/
theorem sublist_keepFirsts (l : List String) :
    List.Sublist (keepFirsts l) l := by
  induction l using keepFirsts.induct with
  | case1 => simp [keepFirsts]
  | case2 x xs ih =>
    rw [keepFirsts]
    exact List.Sublist.cons₂ x (ih.trans (List.filter_sublist xs))

/-! ### Claim C7 -/

/-- C7: for every input string, `sanitizeMessage` trims surrounding
whitespace (the result has no whitespace at either edge), strips all
newline characters (every remaining character passes `keepChar`), and
removes a single trailing period only when preceded by a word character
(so the result never ends in a word character followed by a period);
in particular "  Fix the login bug.\n" maps to "Fix the login bug" and
"Update README..." is unchanged. -/
theorem sanitizeMessage_correct :
    sanitizeMessage "  Fix the login bug.\n" = "Fix the login bug" ∧
    sanitizeMessage "Update README..." = "Update README..." ∧
    ∀ s : String,
      (sanitizeMessage s).data.all keepChar = true ∧
      noEdgeWhitespace (sanitizeMessage s).data = true ∧
      endsWithWordDot (sanitizeMessage s).data = false := by
  refine ⟨by decide, by decide, fun s => ?_⟩
  exact ⟨sanitizeMessage_noNewline s, sanitizeMessage_noEdge s,
    sanitizeMessage_noWordDot s⟩

/-! ### Claim C10 -/

/-- C10: `sanitizeMessage` is idempotent — a second application of
trim, newline stripping, and conditional trailing-period removal
changes nothing. -/
theorem sanitizeMessage_idempotent (s : String) :
    sanitizeMessage (sanitizeMessage s) = sanitizeMessage s := by
  have h1 : jsTrimList (sanitizeMessage s).data = (sanitizeMessage s).data :=
    jsTrimList_eq_self (sanitizeMessage_noEdge s)
  have h2 : stripNewlines (sanitizeMessage s).data = (sanitizeMessage s).data :=
    stripNewlines_eq_self (List.all_eq_true.mp (sanitizeMessage_noNewline s))
  have h3 : dropTrailingPeriod (sanitizeMessage s).data = (sanitizeMessage s).data :=
    dropTrailingPeriod_eq_self (sanitizeMessage_noWordDot s)
  show (⟨dropTrailingPeriod (stripNewlines (jsTrimList (sanitizeMessage s).data))⟩ : String)
    = sanitizeMessage s
  rw [h1, h2, h3]

/-! ### Claim C8 -/

/-- C8: `deduplicateMessages` returns the first occurrences of its
input in order: it equals `keepFirsts`, contains no two equal strings,
is a sublist of the input (relative order preserved), has the same
members as the input, and maps the example
["Fix bug", "Fix bug", "Add tests"] to ["Fix bug", "Add tests"]. -/
theorem deduplicateMessages_correct :
    deduplicateMessages ["Fix bug", "Fix bug", "Add tests"]
      = ["Fix bug", "Add tests"] ∧
    ∀ l : List String,
      deduplicateMessages l = keepFirsts l ∧
      (deduplicateMessages l).Nodup ∧
      List.Sublist (deduplicateMessages l) l ∧
      ∀ s : String, (s ∈ deduplicateMessages l ↔ s ∈ l) := by
  refine ⟨by decide, fun l => ?_⟩
  have he := deduplicateMessages_eq_keepFirsts l
  refine ⟨he, ?_, ?_, ?_⟩
  · rw [he]; exact nodup_keepFirsts l
  · rw [he]; exact sublist_keepFirsts l
  · intro s; rw [he]; exact mem_keepFirsts l s

/-! ### Lemmas: substring search under concatenation -/

/-- A prefix of `a` is a prefix of `a ++ b`. -/
theorem leadsWith_append {p a : List Char} (b : List Char)
    (h : leadsWith p a = true) : leadsWith p (a ++ b) = true := by
  induction a generalizing p with
  | nil =>
    cases p with
    | nil => cases b <;> rfl
    | cons q qs => cases h
  | cons c cs ih =>
    cases p with
    | nil => rfl
    | cons q qs =>
      simp only [leadsWith, Bool.and_eq_true] at h
      simp only [List.cons_append, leadsWith, Bool.and_eq_true]
      exact ⟨h.1, ih h.2⟩

/-- The empty pattern occurs everywhere. -/
theorem occursIn_nil_pat (l : List Char) : occursIn [] l = true := by
  cases l <;> rfl

/-- An occurrence in `a` is an occurrence in `a ++ b`. -/
theorem occursIn_append_left {p a : List Char} (b : List Char)
    (h : occursIn p a = true) : occursIn p (a ++ b) = true := by
  induction a with
  | nil =>
    cases p with
    | nil => exact occursIn_nil_pat b
    | cons q qs => cases h
  | cons c cs ih =>
    simp only [occursIn, Bool.or_eq_true] at h
    rcases h with h | h
    · simp only [List.cons_append, occursIn, Bool.or_eq_true]
      exact Or.inl (leadsWith_append b h)
    · simp only [List.cons_append, occursIn, Bool.or_eq_true]
      exact Or.inr (ih h)

/-- An occurrence in `b` is an occurrence in `a ++ b`. -/
theorem occursIn_append_right {p b : List Char} (a : List Char)
    (h : occursIn p b = true) : occursIn p (a ++ b) = true := by
  induction a with
  | nil => exact h
  | cons c cs ih =>
    simp only [List.cons_append, occursIn, Bool.or_eq_true]
    exact Or.inr ih

/-- String-level: an occurrence in `s` survives appending on the
right. -/
theorem strIncludes_append_left {s pat : String} (t : String)
    (h : strIncludes s pat = true) : strIncludes (s ++ t) pat = true :=
  occursIn_append_left t.data h

/-- The 401 status line always makes the composed API error message
contain "401". -/
theorem apiErrorMessage_includes_401 (sm data : String) :
    strIncludes (apiErrorMessage ⟨some 401, sm⟩ data) "401" = true := by
  unfold apiErrorMessage
  simp only
  rw [if_neg (by decide : ¬ (some 401 : Option Nat) = some 500)]
  have hbase : strIncludes
      ("OpenAI API Error: " ++ statusCodeStr (some 401) ++ " - ") "401" = true := by
    decide
  by_cases hd : data ≠ ""
  · rw [if_pos hd]
    exact strIncludes_append_left data
      (strIncludes_append_left "\n\n" (strIncludes_append_left sm hbase))
  · rw [if_neg hd]
    exact strIncludes_append_left sm hbase

/-! ### Lemmas: the retry loop -/

/-- The loop performs at most `remaining + 1` attempts. -/
theorem runAttempts_attempts_le (o : Nat → AttemptOutcome) :
    ∀ (remaining attempt : Nat),
      (runAttempts o attempt remaining).attemptsMade ≤ remaining + 1 := by
  intro remaining
  induction remaining with
  | zero =>
    intro a
    cases h : runAttempt (o a) <;> simp [runAttempts, h]
  | succ n ih =>
    intro a
    cases h : runAttempt (o a) with
    | ok r => simp [runAttempts, h]
    | error e =>
      simp only [runAttempts, h]
      by_cases ha : isAuthError e = true
      · simp [ha]
      · have ha0 : isAuthError e = false := by simpa using ha
        by_cases hn : isNetworkError e.message = true
        · simp only [ha0, Bool.false_eq_true, if_false, hn,
            Bool.not_true, if_neg]
          have := ih (a + 1)
          omega
        · have hn0 : isNetworkError e.message = false := by simpa using hn
          simp [ha0, hn0]

/-- The loop always performs at least one attempt. -/
theorem runAttempts_attempts_pos (o : Nat → AttemptOutcome) :
    ∀ (remaining attempt : Nat),
      1 ≤ (runAttempts o attempt remaining).attemptsMade := by
  intro remaining
  induction remaining with
  | zero =>
    intro a
    cases h : runAttempt (o a) <;> simp [runAttempts, h]
  | succ n ih =>
    intro a
    cases h : runAttempt (o a) with
    | ok r => simp [runAttempts, h]
    | error e =>
      simp only [runAttempts, h]
      by_cases ha : isAuthError e = true
      · simp [ha]
      · have ha0 : isAuthError e = false := by simpa using ha
        by_cases hn : isNetworkError e.message = true
        · simp only [ha0, Bool.false_eq_true, if_false, hn,
            Bool.not_true, if_neg]
          omega
        · have hn0 : isNetworkError e.message = false := by simpa using hn
          simp [ha0, hn0]

/-- When every attempt in range fails retryably, the loop runs all
`remaining + 1` attempts and surfaces the last failure. -/
theorem runAttempts_all_retryable (o : Nat → AttemptOutcome) :
    ∀ (remaining attempt : Nat),
      (∀ i, attempt ≤ i → i ≤ attempt + remaining →
        failsRetryably (runAttempt (o i)) = true) →
      (runAttempts o attempt remaining).attemptsMade = remaining + 1 ∧
      (runAttempts o attempt remaining).result
        = Except.error (errOf o (attempt + remaining)) := by
  intro remaining
  induction remaining with
  | zero =>
    intro a h
    have h0 := h a (Nat.le_refl a) (by omega)
    cases hr : runAttempt (o a) with
    | ok r => rw [hr] at h0; simp [failsRetryably] at h0
    | error e =>
      constructor
      · simp [runAttempts, hr]
      · simp [runAttempts, hr, errOf]
  | succ n ih =>
    intro a h
    have h0 := h a (Nat.le_refl a) (by omega)
    cases hr : runAttempt (o a) with
    | ok r => rw [hr] at h0; simp [failsRetryably] at h0
    | error e =>
      rw [hr] at h0
      simp only [failsRetryably, Bool.and_eq_true, Bool.not_eq_true'] at h0
      have hrec := ih (a + 1) (fun i h1 h2 => h i (by omega) (by omega))
      have hadd : a + 1 + n = a + (n + 1) := by omega
      rw [hadd] at hrec
      constructor
      · simp only [runAttempts, hr, h0.2, Bool.false_eq_true, if_false,
          h0.1, Bool.not_true, if_neg]
        rw [hrec.1]
      · simp only [runAttempts, hr, h0.2, Bool.false_eq_true, if_false,
          h0.1, Bool.not_true, if_neg]
        exact hrec.2

/-- Each recorded backoff delay is determined by the index of the
attempt that preceded it. -/
theorem runAttempts_delays_getElem (o : Nat → AttemptOutcome) :
    ∀ (remaining attempt j : Nat) (d : Nat),
      ((runAttempts o attempt remaining).delays)[j]? = some d →
      d = backoffDelay (attempt + j) := by
  intro remaining
  induction remaining with
  | zero =>
    intro a j d hd
    exfalso
    cases hr : runAttempt (o a) <;> simp [runAttempts, hr] at hd
  | succ n ih =>
    intro a j d hd
    cases hr : runAttempt (o a) with
    | ok r => exfalso; simp [runAttempts, hr] at hd
    | error e =>
      by_cases ha : isAuthError e = true
      · exfalso; simp [runAttempts, hr, ha] at hd
      · have ha0 : isAuthError e = false := by simpa using ha
        by_cases hn : isNetworkError e.message = true
        · have hdel : (runAttempts o a (n + 1)).delays
              = backoffDelay a :: (runAttempts o (a + 1) n).delays := by
            simp [runAttempts, hr, ha0, hn]
          rw [hdel] at hd
          cases j with
          | zero =>
            have hda : backoffDelay a = d := by simpa using hd
            rw [← hda]
            simp
          | succ k =>
            simp only [List.getElem?_cons_succ] at hd
            have := ih (a + 1) k d hd
            rw [this]
            congr 1
            omega
        · exfalso
          have hn0 : isNetworkError e.message = false := by simpa using hn
          simp [runAttempts, hr, ha0, hn0] at hd

/-! ### Claim C1 -/

/-- C1: when every attempt up to index `r` fails with a failure the
retry loop classifies as retryable, `createChatCompletion` with
`maxRetries = r` performs exactly `r + 1` transport attempts and then
terminates surfacing the last observed failure; unconditionally, it
never performs more than `r + 1` attempts. -/
theorem createChatCompletion_exhausts_all_attempts
    (o : Nat → AttemptOutcome) (r : Nat) :
    ((∀ i, i ≤ r → failsRetryably (runAttempt (o i)) = true) →
      (createChatCompletion o r).attemptsMade = r + 1 ∧
      (createChatCompletion o r).result = Except.error (errOf o r)) ∧
    (createChatCompletion o r).attemptsMade ≤ r + 1 := by
  constructor
  · intro h
    have := runAttempts_all_retryable o r 0 (fun i _ h2 => h i (by omega))
    simpa [createChatCompletion] using this
  · exact runAttempts_attempts_le o r 0

/-- Witness for C1: three TLS-handshake failures with `maxRetries = 2`
give exactly three attempts and surface the third failure. -/
theorem createChatCompletion_exhausts_all_attempts_witness :
    (createChatCompletion tlsFailOutcome 2).attemptsMade = 2 + 1 ∧
    (createChatCompletion tlsFailOutcome 2).result
      = Except.error (errOf tlsFailOutcome 2) :=
  (createChatCompletion_exhausts_all_attempts tlsFailOutcome 2).1 (by decide)

/-! ### Claim C6 -/

/-- C6: whenever a retryable failure at 0-based attempt index `i` with
`i < maxRetries` causes a wait, the delay recorded at position `i` of
the delay log equals `min(1000 * 2 ^ i, 5000)` milliseconds. -/
theorem createChatCompletion_backoff_delays
    (o : Nat → AttemptOutcome) (r j d : Nat)
    (h : ((createChatCompletion o r).delays)[j]? = some d) :
    d = min (1000 * 2 ^ j) 5000 := by
  have := runAttempts_delays_getElem o r 0 j d h
  simpa [backoffDelay] using this

/-- Witness for C6: with TLS failures and `maxRetries = 2`, the first
recorded delay is 1000 ms and the second is 2000 ms. -/
theorem createChatCompletion_backoff_delays_witness :
    (1000 : Nat) = min (1000 * 2 ^ 0) 5000 ∧
    (2000 : Nat) = min (1000 * 2 ^ 1) 5000 :=
  ⟨createChatCompletion_backoff_delays tlsFailOutcome 2 0 1000 (by decide),
   createChatCompletion_backoff_delays tlsFailOutcome 2 1 2000 (by decide)⟩

/-! ### Claim C2 -/

/-- C2: for every `maxRetries`, an HTTP 401 response terminates the
call after the first attempt (the 401 check fires before any retry
logic), and a 2xx response whose body is not valid JSON terminates
after the first attempt with the parse error — provided the platform
parse-error text does not itself contain one of the network
substrings, which classic Node messages ("Unexpected token … in JSON
at position …") never do. -/
theorem auth_and_malformed_terminate_first_attempt
    (o : Nat → AttemptOutcome) (r : Nat) :
    (∀ (sm : String) (body : Body),
      o 0 = AttemptOutcome.resolved ⟨some 401, sm⟩ body →
      (createChatCompletion o r).attemptsMade = 1 ∧
      (createChatCompletion o r).result
        = Except.error (KnownError (apiErrorMessage ⟨some 401, sm⟩ body.text))) ∧
    (∀ (resp : HttpResponse) (body : Body),
      o 0 = AttemptOutcome.resolved resp body →
      is2xx resp.statusCode = true →
      body.parsed = none →
      isNetworkError body.parseErrMsg = false →
      (createChatCompletion o r).attemptsMade = 1 ∧
      (createChatCompletion o r).result
        = Except.error { known := false, message := body.parseErrMsg }) := by
  constructor
  · intro sm body h0
    have hrun : runAttempt (o 0)
        = Except.error (KnownError (apiErrorMessage ⟨some 401, sm⟩ body.text)) := by
      rw [h0]
      have h2 : is2xx (some 401) = false := by decide
      simp [runAttempt, h2]
    have hauth : isAuthError (KnownError (apiErrorMessage ⟨some 401, sm⟩ body.text)) = true := by
      simp [isAuthError, KnownError, apiErrorMessage_includes_401]
    cases r with
    | zero => constructor <;> simp [createChatCompletion, runAttempts, hrun]
    | succ n =>
      constructor <;> simp [createChatCompletion, runAttempts, hrun, hauth]
  · intro resp body h0 h2xx hparse hnet
    have hrun : runAttempt (o 0)
        = Except.error { known := false, message := body.parseErrMsg } := by
      rw [h0]
      simp [runAttempt, h2xx, hparse]
    have hauth : isAuthError { known := false, message := body.parseErrMsg } = false := by
      simp [isAuthError]
    cases r with
    | zero => constructor <;> simp [createChatCompletion, runAttempts, hrun]
    | succ n =>
      constructor <;> simp [createChatCompletion, runAttempts, hrun, hauth, hnet]

/-- Witness for C2: a 401 response with `maxRetries = 5` stops after
one attempt, and so does a 200 response with a non-JSON body. -/
theorem auth_and_malformed_terminate_first_attempt_witness :
    ((createChatCompletion authFailOutcome 5).attemptsMade = 1 ∧
      (createChatCompletion authFailOutcome 5).result
        = Except.error (KnownError (apiErrorMessage ⟨some 401, "Unauthorized"⟩
            "\x7b\"error\": \"invalid key\"\x7d"))) ∧
    ((createChatCompletion malformedOutcome 5).attemptsMade = 1 ∧
      (createChatCompletion malformedOutcome 5).result
        = Except.error
            { known := false,
              message := "Unexpected token < in JSON at position 0" }) :=
  ⟨(auth_and_malformed_terminate_first_attempt authFailOutcome 5).1
      "Unauthorized"
      { text := "\x7b\"error\": \"invalid key\"\x7d", parsed := none, parseErrMsg := "" }
      rfl,
   (auth_and_malformed_terminate_first_attempt malformedOutcome 5).2
      ⟨some 200, "OK"⟩
      { text := "<html>Bad Gateway</html>", parsed := none,
        parseErrMsg := "Unexpected token < in JSON at position 0" }
      rfl (by decide) rfl (by decide)⟩

/-! ### Claim C4 -/

/-- C4 counterexample: a plain HTTP 500 failure at attempt 0 with
`maxRetries = 1` is NOT retried — the call performs a single attempt
and surfaces the API error immediately, because the composed message
("OpenAI API Error: 500 - Internal Server Error …") contains none of
the network substrings the retry condition looks for. -/
theorem serverError_not_retried_counterexample :
    (createChatCompletion serverErrorOutcome 1).attemptsMade = 1 ∧
    (createChatCompletion serverErrorOutcome 1).result
      = Except.error (KnownError
          (apiErrorMessage ⟨some 500, "Internal Server Error"⟩ "")) :=
  ⟨rfl, rfl⟩

/-- C4 amended: an attempt failing with an HTTP status in 500-599 is
retried only when the composed error message (status line plus body)
happens to contain one of the network substrings; otherwise the
orchestrator terminates immediately after that attempt even though
`attempt index < maxRetries`. -/
theorem serverError_retried_only_on_network_text
    (o : Nat → AttemptOutcome) (r sc : Nat) (sm : String) (body : Body)
    (h5a : 500 ≤ sc) (h5b : sc ≤ 599)
    (h0 : o 0 = AttemptOutcome.resolved ⟨some sc, sm⟩ body)
    (hr : 1 ≤ r) :
    (isAuthError (KnownError (apiErrorMessage ⟨some sc, sm⟩ body.text)) = false →
      isNetworkError (apiErrorMessage ⟨some sc, sm⟩ body.text) = false →
      (createChatCompletion o r).attemptsMade = 1 ∧
      (createChatCompletion o r).result
        = Except.error (KnownError (apiErrorMessage ⟨some sc, sm⟩ body.text))) ∧
    (isAuthError (KnownError (apiErrorMessage ⟨some sc, sm⟩ body.text)) = false →
      isNetworkError (apiErrorMessage ⟨some sc, sm⟩ body.text) = true →
      2 ≤ (createChatCompletion o r).attemptsMade) := by
  have hx : is2xx (some sc) = false := by
    simp only [is2xx, Bool.and_eq_true, decide_eq_true_eq, Bool.and_eq_false_iff,
      decide_eq_false_iff_not]
    omega
  have hrun : runAttempt (o 0)
      = Except.error (KnownError (apiErrorMessage ⟨some sc, sm⟩ body.text)) := by
    rw [h0]
    simp [runAttempt, hx]
  obtain ⟨n, rfl⟩ : ∃ n, r = n + 1 := ⟨r - 1, by omega⟩
  constructor
  · intro hauth hnet
    have hmsg : isNetworkError (KnownError (apiErrorMessage ⟨some sc, sm⟩ body.text)).message = false := hnet
    constructor <;>
      simp [createChatCompletion, runAttempts, hrun, hauth, hmsg]
  · intro hauth hnet
    have hmsg : isNetworkError (KnownError (apiErrorMessage ⟨some sc, sm⟩ body.text)).message = true := hnet
    have hpos := runAttempts_attempts_pos o n 1
    have hstep : (createChatCompletion o (n + 1)).attemptsMade
        = (runAttempts o 1 n).attemptsMade + 1 := by
      simp [createChatCompletion, runAttempts, hrun, hauth, hmsg]
    rw [hstep]
    omega

/-- Witness for C4's amended statement: the plain 500 terminates after
one attempt; the 503 whose body quotes ECONNRESET is retried and a
second attempt runs. -/
theorem serverError_retried_only_on_network_text_witness :
    ((createChatCompletion serverErrorOutcome 1).attemptsMade = 1 ∧
      (createChatCompletion serverErrorOutcome 1).result
        = Except.error (KnownError
            (apiErrorMessage ⟨some 500, "Internal Server Error"⟩ ""))) ∧
    2 ≤ (createChatCompletion serverErrorResetOutcome 1).attemptsMade :=
  ⟨(serverError_retried_only_on_network_text serverErrorOutcome 1 500
      "Internal Server Error"
      { text := "", parsed := none, parseErrMsg := "" }
      (by decide) (by decide) rfl (by decide)).1 (by decide) (by decide),
   (serverError_retried_only_on_network_text serverErrorResetOutcome 1 503
      "Service Unavailable"
      { text := "upstream connect error: ECONNRESET", parsed := none, parseErrMsg := "" }
      (by decide) (by decide) rfl (by decide)).2 (by decide) (by decide)⟩

/-! ### Claim C5 -/

/-- C5, code behaviour at the claimed scenario: with `maxRetries = 1`
and the first attempt rejecting with the `httpsPost` timeout error
(10000 ms budget), the call performs only ONE attempt — not two — and
surfaces the timeout message immediately, because neither the timeout
handler's message nor the `ETIMEDOUT` rewrite of the error handler
contains any of the substrings ('TLS', 'socket disconnected',
'ECONNRESET', 'ETIMEDOUT', 'ENOTFOUND') that the retry condition
checks: the `errorMessage.includes('ETIMEDOUT')` retry test can never
fire on the messages this code constructs. -/
theorem timeout_not_retried_code_behavior :
    (createChatCompletion timedOutOutcome 1).attemptsMade = 1 ∧
    (createChatCompletion timedOutOutcome 1).result
      = Except.error (KnownError (timeoutMessage 10000)) ∧
    isNetworkError (timeoutMessage 10000) = false ∧
    ∀ (hostname msg : String),
      rewriteErrorMessage hostname (some "ETIMEDOUT") msg
        = "Connection timed out. Please check your network connection and try again." ∧
      isNetworkError (rewriteErrorMessage hostname (some "ETIMEDOUT") msg) = false := by
  refine ⟨rfl, rfl, by decide, ?_⟩
  intro hostname msg
  have hrw : rewriteErrorMessage hostname (some "ETIMEDOUT") msg
      = "Connection timed out. Please check your network connection and try again." := by
    unfold rewriteErrorMessage
    rw [if_neg (by decide), if_neg (by decide), if_pos rfl]
  exact ⟨hrw, by rw [hrw]; decide⟩

/-! ### Claim C3 -/

/-- C3: on the SDK path, the relaxed-TLS environment variable is
cleared on every exit path (success or thrown failure, timeouts
included, since they surface as thrown errors), so no TLS-relaxation
state remains after the call; when `insecureTls` is false the variable
is never touched; and on the raw-HTTPS path certificate verification
is a per-request option `rejectUnauthorized = !insecureTls` with no
global state at all. -/
theorem insecureTls_restored_on_every_exit
    (insecureTls : Bool) (timeout : Nat)
    (outcome : Except SdkError ChatResponse) (env0 : Bool) :
    (generateCommitMessageSdk insecureTls timeout outcome env0).2
      = (if insecureTls then false else env0) ∧
    ∀ (hostname path : String) (t : Nat) (proxy : Option String),
      (mkRequestOptions hostname path t proxy insecureTls).rejectUnauthorized
        = !insecureTls := by
  constructor
  · cases outcome <;> cases insecureTls <;> rfl
  · intro hostname path t proxy
    rfl

/-! ### Claim C9 -/

/-- C9: choices lacking message content are dropped, never turned into
candidates: on a successful parse where every entry lacks content the
call returns an empty list as a success, and every returned string is
the sanitization of some present, non-empty content — so no empty
string ever arises from a contentless entry. -/
theorem empty_content_choices_dropped
    (o : Nat → AttemptOutcome) (rOpt : Option Nat)
    (completion : ChatResponse)
    (hok : (createChatCompletion o (rOpt.getD 2)).result
      = Except.ok completion) :
    (completion.choices.all (fun ch => !choiceHasContent ch) = true →
      generateCommitMessage o rOpt = Except.ok []) ∧
    ∀ s ∈ extractMessages completion, ∃ ch ∈ completion.choices,
      ∃ c : String,
        (∃ m : ChatMessage, ch.message = some m ∧ m.content = some c) ∧
        c ≠ "" ∧ s = sanitizeMessage c := by
  constructor
  · intro hall
    have hfil : completion.choices.filter choiceHasContent = [] := by
      rw [List.filter_eq_nil_iff]
      intro ch hch
      have h1 := List.all_eq_true.mp hall ch hch
      simp only [Bool.not_eq_true'] at h1
      simp [h1]
    simp only [generateCommitMessage, hok]
    simp [extractMessages, hfil, deduplicateMessages]
  · intro s hs
    rw [extractMessages, deduplicateMessages_eq_keepFirsts] at hs
    have hs2 := (mem_keepFirsts _ s).mp hs
    obtain ⟨ch, hch, hmap⟩ := List.mem_map.mp hs2
    have hmem := (List.mem_filter.mp hch).1
    have hcont := (List.mem_filter.mp hch).2
    refine ⟨ch, hmem, ?_⟩
    cases hm : ch.message with
    | none =>
      exfalso
      have hF : choiceHasContent ch = false := by
        simp [choiceHasContent, hm]
      rw [hF] at hcont
      cases hcont
    | some m =>
      cases hc : m.content with
      | none =>
        exfalso
        have hF : choiceHasContent ch = false := by
          simp [choiceHasContent, hm, hc]
        rw [hF] at hcont
        cases hcont
      | some c =>
        have hcc : (c != "") = true := by
          have hvc : choiceHasContent ch = (c != "") := by
            simp [choiceHasContent, hm, hc]
          rw [← hvc]
          exact hcont
        refine ⟨c, ⟨m, rfl, hc⟩, bne_iff_ne.mp hcc, ?_⟩
        rw [← hmap]
        simp [choiceContent, hm, hc]

/-- Witness for C9: a successful 200 response parsing to three choices
that all lack usable content yields the empty success result. -/
theorem empty_content_choices_dropped_witness :
    generateCommitMessage emptyChoicesOutcome none = Except.ok [] :=
  (empty_content_choices_dropped emptyChoicesOutcome none
    { choices :=
        [ { message := none },
          { message := some { content := none } },
          { message := some { content := some "" } } ] }
    rfl).1 (by decide)
